import Mathlib

/-!
Verification development for the `lab_data_logger` ingestion pipeline.

Shallow embedding of the registry/worker logic of the repository:

* `get_data` / `filter_fields`  — field filtering of `LabDataService`
  (`services/base.py` and the legacy `services.py`);
* `Netloc`, `parse_netloc`      — network-location value type and parsing
  (`common.py`, `utils.py`);
* `RecState`, `connect_source`, `remove_source`, `set_sink`
                                — the Recorder control plane (`recorder.py`);
* `pullStep` / `runPull`        — the Source worker loop (`source.py`);
* `write_points_run` / `pusher_push_run`
                                — the Sink worker loops (`sinks.py`, `logger.py`);
* `ldsInit`                     — `LabDataService.__init__` and its class-level
                                  config dict (`services/base.py`, `services.py`);
* `SMState`, `exposed_add_service`, `exposed_remove_service`
                                — the ServiceManager (`services.py`, `_pool.py`).

Python dicts are modelled as association lists with unique keys in insertion
order; a raised exception is modelled by `Option`/an error component; the side
effect of starting or stopping a worker process is modelled by explicit fields
of the state.
-/

/-- Field values allowed by the data model (`common.py`: int, float, str, bool;
float is represented by its rational value). -/
inductive FieldValue where
  | i (n : Int)
  | f (q : Rat)
  | s (t : String)
  | b (v : Bool)
deriving DecidableEq, Repr

/-- A `Fields` mapping: a Python dict from field name to value, modelled as an
association list in insertion order with unique keys. -/
abbrev Fields := List (String × FieldValue)

/-- Dict assignment `d[k] = v`: overwrite in place if the key exists, else
append (CPython insertion-order semantics). -/
def dictSet (d : Fields) (k : String) (v : FieldValue) : Fields :=
  if d.any (fun kv => decide (kv.1 = k)) then
    d.map (fun kv => if kv.1 = k then (k, v) else kv)
  else
    d ++ [(k, v)]

/-- Dict lookup `d[k]` as an `Option` (`none` models a `KeyError`). -/
def lookupField (d : Fields) (k : String) : Option FieldValue :=
  (d.find? (fun kv => decide (kv.1 = k))).map (fun kv => kv.2)

/-- `LabDataService.get_data` of `services/base.py` (lines 37-42), applied to
the fields produced by `_get_data_fields`:

    fields = self._get_data_fields(requested_fields)
    if requested_fields:
        fields = \x7bkey: fields[key] for key in fields if key in requested_fields\x7d
    return fields

The comprehension iterates over the produced dict and keeps the keys that are
also requested, so it never raises. -/
def get_data (produced : Fields) (requested_fields : List String) : Fields :=
  if requested_fields.isEmpty then produced
  else produced.filter (fun kv => requested_fields.contains kv.1)

/-- `LabDataService.filter_fields` of the legacy `services.py` (lines 212-232),
restricted to the `"fields"` entry of the data dict:

    if fields:
        data["fields"] = \x7bfield: data["fields"][field] for field in fields\x7d

The comprehension iterates over the REQUESTED fields and indexes the produced
dict, so a requested field that is not produced raises `KeyError` (`none`). -/
def filter_fields (produced : Fields) (fields : List String) : Option Fields :=
  if fields.isEmpty then some produced
  else fields.foldlM (fun acc k => (lookupField produced k).map (dictSet acc k)) []

theorem lookupField_eq_none {d : Fields} {k : String} :
    lookupField d k = none ↔ ∀ kv ∈ d, kv.1 ≠ k := by
  simp [lookupField, List.find?_eq_none]

theorem foldlM_filter_eq_none (produced : Fields) :
    ∀ (ks : List String) (acc : Fields),
      (List.foldlM (fun acc k => (lookupField produced k).map (dictSet acc k)) acc ks
        = none)
      ↔ ∃ k ∈ ks, lookupField produced k = none := by
  intro ks
  induction ks with
  | nil => intro acc; simp
  | cons k ks ih =>
    intro acc
    cases h : lookupField produced k with
    | none => simp [h]
    | some v => simp [h, ih]

/-- `filter_fields` with a nonempty requested list fails (raises `KeyError`)
exactly when some requested field is missing from the produced fields. -/
theorem filter_fields_eq_none (produced : Fields) (fields : List String) :
    filter_fields produced fields = none ↔
      fields ≠ [] ∧ ∃ k ∈ fields, lookupField produced k = none := by
  unfold filter_fields
  rcases fields with _ | ⟨k, ks⟩
  · simp
  · simpa using foldlM_filter_eq_none produced (k :: ks) []

/-- Characters of the decimal representation of `n`, most significant digit
first; empty for `n = 0`. Fuel-based structural recursion, valid for
`n ≤ fuel`. -/
def natToCharsAux : Nat → Nat → List Char
  | 0, _ => []
  | _ + 1, 0 => []
  | fuel + 1, n + 1 =>
      natToCharsAux fuel ((n + 1) / 10) ++ [Nat.digitChar ((n + 1) % 10)]

/-- Decimal rendering of a natural number, Python `str(n)`. -/
def natToChars (n : Nat) : List Char :=
  if n = 0 then ['0'] else natToCharsAux n n

/-- Decimal rendering of an integer, Python `str(i)`. -/
def intToChars (i : Int) : List Char :=
  if i < 0 then '-' :: natToChars i.natAbs else natToChars i.toNat

/-- Parse a nonempty all-digit character list as a natural number; `none`
models Python `int` raising `ValueError`. -/
def charsToNat (cs : List Char) : Option Nat :=
  if cs ≠ [] ∧ cs.all Char.isDigit then
    some (cs.foldl (fun a c => a * 10 + (c.toNat - 48)) 0)
  else none

/-- Parse an optionally minus-signed digit string as an integer, Python
`int(s)` on canonical integer renderings. -/
def charsToInt (cs : List Char) : Option Int :=
  if cs.headD 'x' = '-' then
    match charsToNat cs.tail with
    | some n => some (-(n : Int))
    | none => none
  else
    match charsToNat cs with
    | some n => some ((n : Int))
    | none => none

/-- The `Netloc` value type (`common.py` lines 9-17: a frozen dataclass with
value equality, so equal Netlocs are interchangeable as dict keys). Python
strings are modelled as lists of characters. -/
structure Netloc where
  host : List Char
  port : Int
deriving DecidableEq, Repr

/-- Canonical string form of a `Netloc` (`common.py` `__str__`: the host, a
colon, then the port). -/
def netlocToChars (n : Netloc) : List Char :=
  n.host ++ ':' :: intToChars n.port

/-- Python `split` on a single character: n separators yield n+1 groups, so
the empty string yields one empty group. -/
def splitCh (sep : Char) : List Char → List (List Char)
  | [] => [[]]
  | c :: cs =>
      if c = sep then [] :: splitCh sep cs
      else
        match splitCh sep cs with
        | [] => [[c]]
        | g :: gs => (c :: g) :: gs

/-- `parse_netloc` of `utils.py` (lines 12-33): split on the colon; two parts
are host and port, one part is a port on localhost, anything else raises
`ValueError`; the port is parsed with `int`. -/
def parse_netloc (cs : List Char) : Option Netloc :=
  match splitCh ':' cs with
  | [h, p] => (charsToInt p).map (fun port => Netloc.mk h port)
  | [p] => (charsToInt p).map (fun port => Netloc.mk "localhost".toList port)
  | _ => none

theorem digitChar_isDigit {d : Nat} (h : d < 10) :
    (Nat.digitChar d).isDigit = true := by
  interval_cases d <;> decide

theorem digitChar_toNat {d : Nat} (h : d < 10) :
    (Nat.digitChar d).toNat - 48 = d := by
  interval_cases d <;> decide

theorem natToCharsAux_all_isDigit :
    ∀ fuel n, ∀ c ∈ natToCharsAux fuel n, c.isDigit = true := by
  intro fuel
  induction fuel with
  | zero => intro n c hc; simp [natToCharsAux] at hc
  | succ fuel ih =>
    intro n c hc
    match n with
    | 0 => simp [natToCharsAux] at hc
    | m + 1 =>
      rw [natToCharsAux] at hc
      rcases List.mem_append.mp hc with h | h
      · exact ih _ c h
      · rw [List.mem_singleton.mp h]
        exact digitChar_isDigit (Nat.mod_lt _ (by norm_num))

theorem natToCharsAux_ne_nil :
    ∀ fuel n, 0 < n → n ≤ fuel → natToCharsAux fuel n ≠ [] := by
  intro fuel n h1 h2
  match fuel, n with
  | 0, n => omega
  | fuel + 1, 0 => omega
  | fuel + 1, m + 1 => rw [natToCharsAux]; simp

theorem foldl_natToCharsAux :
    ∀ fuel n a, n ≤ fuel →
      (natToCharsAux fuel n).foldl (fun acc c => acc * 10 + (c.toNat - 48)) a
        = a * 10 ^ (natToCharsAux fuel n).length + n := by
  intro fuel
  induction fuel with
  | zero => intro n a h; interval_cases n; simp [natToCharsAux]
  | succ fuel ih =>
    intro n a h
    match n with
    | 0 => simp [natToCharsAux]
    | m + 1 =>
      rw [natToCharsAux, List.foldl_append, List.length_append]
      have hq : (m + 1) / 10 ≤ fuel := by
        have := Nat.div_lt_self (Nat.succ_pos m) (by norm_num : 1 < 10)
        omega
      rw [ih ((m + 1) / 10) a hq]
      simp only [List.foldl_cons, List.foldl_nil, List.length_singleton]
      rw [digitChar_toNat (Nat.mod_lt _ (by norm_num))]
      have hmod := Nat.div_add_mod (m + 1) 10
      set k := (natToCharsAux fuel ((m + 1) / 10)).length
      calc (a * 10 ^ k + (m + 1) / 10) * 10 + (m + 1) % 10
          = a * (10 ^ k * 10) + (10 * ((m + 1) / 10) + (m + 1) % 10) := by ring
        _ = a * 10 ^ (k + 1) + (m + 1) := by rw [hmod, pow_succ]

theorem charsToNat_natToChars (n : Nat) : charsToNat (natToChars n) = some n := by
  unfold natToChars
  by_cases h : n = 0
  · subst h; decide
  · rw [if_neg h]
    have hne := natToCharsAux_ne_nil n n (Nat.pos_of_ne_zero h) le_rfl
    have hall : (natToCharsAux n n).all Char.isDigit = true := by
      rw [List.all_eq_true]
      intro c hc
      exact natToCharsAux_all_isDigit n n c hc
    unfold charsToNat
    rw [if_pos ⟨hne, hall⟩, foldl_natToCharsAux n n 0 le_rfl]
    simp

theorem natToChars_ne_nil (n : Nat) : natToChars n ≠ [] := by
  unfold natToChars
  by_cases h : n = 0
  · simp [h]
  · rw [if_neg h]
    exact natToCharsAux_ne_nil n n (Nat.pos_of_ne_zero h) le_rfl

theorem natToChars_all_isDigit (n : Nat) :
    ∀ c ∈ natToChars n, c.isDigit = true := by
  intro c hc
  unfold natToChars at hc
  by_cases h : n = 0
  · rw [h] at hc
    simp at hc
    rw [hc]; decide
  · rw [if_neg h] at hc
    exact natToCharsAux_all_isDigit n n c hc

theorem natToChars_headD_ne_minus (n : Nat) : (natToChars n).headD 'x' ≠ '-' := by
  cases hl : natToChars n with
  | nil => exact absurd hl (natToChars_ne_nil n)
  | cons c cs =>
    have hd : c.isDigit = true :=
      natToChars_all_isDigit n c (hl ▸ List.mem_cons_self c cs)
    simp only [List.headD_cons]
    intro he
    rw [he] at hd
    exact absurd hd (by decide)

theorem charsToInt_intToChars (i : Int) : charsToInt (intToChars i) = some i := by
  unfold intToChars charsToInt
  by_cases h : i < 0
  · rw [if_pos h]
    simp only [List.headD_cons, List.tail_cons, if_pos rfl]
    rw [charsToNat_natToChars]
    show some (-((i.natAbs : Nat) : Int)) = some i
    congr 1
    omega
  · rw [if_neg h, if_neg (natToChars_headD_ne_minus _)]
    rw [charsToNat_natToChars]
    have : ((i.toNat : Nat) : Int) = i := by omega
    simp [this]

theorem intToChars_not_colon (i : Int) : ':' ∉ intToChars i := by
  intro hmem
  unfold intToChars at hmem
  by_cases h : i < 0
  · rw [if_pos h] at hmem
    rcases List.mem_cons.mp hmem with h' | h'
    · exact absurd h' (by decide)
    · exact absurd (natToChars_all_isDigit _ _ h') (by decide)
  · rw [if_neg h] at hmem
    exact absurd (natToChars_all_isDigit _ _ hmem) (by decide)

theorem splitCh_no_sep {sep : Char} :
    ∀ {cs : List Char}, sep ∉ cs → splitCh sep cs = [cs] := by
  intro cs
  induction cs with
  | nil => intro _; rfl
  | cons c cs ih =>
    intro h
    have hc : c ≠ sep := fun he => h (he ▸ List.mem_cons_self c cs)
    rw [splitCh, if_neg hc, ih (fun hm => h (List.mem_cons_of_mem c hm))]

theorem splitCh_append {sep : Char} {b : List Char} :
    ∀ {a : List Char}, sep ∉ a →
      splitCh sep (a ++ sep :: b) = a :: splitCh sep b := by
  intro a
  induction a with
  | nil => intro _; simp [splitCh]
  | cons c a ih =>
    intro h
    have hc : c ≠ sep := fun he => h (he ▸ List.mem_cons_self c a)
    rw [List.cons_append, splitCh, if_neg hc,
      ih (fun hm => h (List.mem_cons_of_mem c hm))]

/-- A `Source` as registered by the Recorder (`source.py` lines 13-51): the
constructor arguments plus whether `pull_process.start()` was called. -/
structure SourceEntry where
  measurement : String
  interval : Rat
  fields : List String
  processStarted : Bool
deriving DecidableEq, Repr

/-- State of a `RecorderService` (`recorder.py` lines 21-35): the registry
`connected_sources` (a dict `Netloc` to `Source` in insertion order), the
current `sink` attribute, and the sink worker processes that have been
started; no recorder operation ever stops a sink worker. Sinks are
identified by an opaque id. -/
structure RecState where
  registry : List (Netloc × SourceEntry)
  sink : Option Nat
  runningSinkWorkers : List Nat
deriving DecidableEq, Repr

/-- The state of a freshly constructed `RecorderService`: empty registry, no
sink set, no sink worker started. -/
def recInit : RecState := ⟨[], none, []⟩

/-- Control-plane validation outcomes of `recorder.py`: the duplicate-netloc
branch of `connect_source` and the `KeyError` branch of `remove_source`
(each surfaced to the caller by `logger.error`). -/
inductive RecErr where
  | alreadyConnected
  | notConnected
deriving DecidableEq, Repr

/-- Membership test of `connect_source`: `netloc in self.connected_sources.keys()`. -/
def containsNetloc (reg : List (Netloc × SourceEntry)) (n : Netloc) : Bool :=
  reg.any (fun e => decide (e.1 = n))

/-- Number of registry entries under a given netloc. -/
def countNetloc (reg : List (Netloc × SourceEntry)) (n : Netloc) : Nat :=
  (reg.filter (fun e => decide (e.1 = n))).length

/-- `RecorderService.connect_source` (`recorder.py` lines 47-77): if the
netloc is already a registry key, only an error is logged and nothing
changes; otherwise a `Source` is constructed, its pull process started, and
the source registered under the netloc. No validation of `interval` is
performed. -/
def connect_source (s : RecState) (netloc : Netloc) (measurement : String)
    (interval : Rat) (fields : List String) : RecState × Option RecErr :=
  if containsNetloc s.registry netloc then
    (s, some RecErr.alreadyConnected)
  else
    ({ s with registry :=
        s.registry ++ [(netloc, ⟨measurement, interval, fields, true⟩)] }, none)

/-- `RecorderService.remove_source` (`recorder.py` lines 79-101): a missing
netloc raises `KeyError`, caught and logged, leaving the state unchanged;
otherwise the source is stopped (stop event, join, terminate if needed) and
deleted from the registry. -/
def remove_source (s : RecState) (netloc : Netloc) : RecState × Option RecErr :=
  if containsNetloc s.registry netloc then
    ({ s with registry := s.registry.eraseP (fun e => decide (e.1 = netloc)) }, none)
  else
    (s, some RecErr.notConnected)

/-- `RecorderService.set_sink` (`recorder.py` lines 37-45): assign the sink
attribute and start its write process. The previous sink worker, if any, is
not stopped. -/
def set_sink (s : RecState) (sinkId : Nat) : RecState :=
  { s with sink := some sinkId,
           runningSinkWorkers := s.runningSinkWorkers ++ [sinkId] }

/-- Python-dict key uniqueness of the registry. -/
def registryKeysUnique (reg : List (Netloc × SourceEntry)) : Prop :=
  List.Pairwise (fun a b => a.1 ≠ b.1) reg

theorem countNetloc_eq_zero {reg : List (Netloc × SourceEntry)} {n : Netloc}
    (h : containsNetloc reg n = false) : countNetloc reg n = 0 := by
  unfold containsNetloc at h
  unfold countNetloc
  rw [List.length_eq_zero, List.filter_eq_nil_iff]
  intro e he
  have := List.any_eq_false.mp h e he
  simpa using this

theorem countNetloc_eq_one {reg : List (Netloc × SourceEntry)} {n : Netloc}
    (hu : registryKeysUnique reg) (h : containsNetloc reg n = true) :
    countNetloc reg n = 1 := by
  induction reg with
  | nil => simp [containsNetloc] at h
  | cons e rest ih =>
    rcases List.pairwise_cons.mp hu with ⟨hhead, htail⟩
    by_cases he : e.1 = n
    · have hrest : containsNetloc rest n = false := by
        unfold containsNetloc
        rw [List.any_eq_false]
        intro x hx
        simp only [decide_eq_true_eq]
        intro hxn
        exact (hhead x hx) (he.trans hxn.symm)
      unfold countNetloc
      rw [List.filter_cons, if_pos (by simpa using he)]
      have := countNetloc_eq_zero hrest
      unfold countNetloc at this
      simp [this]
    · unfold countNetloc
      rw [List.filter_cons, if_neg (by simpa using he)]
      have hmem : containsNetloc rest n = true := by
        unfold containsNetloc at h ⊢
        rcases List.any_eq_true.mp h with ⟨x, hx, hxn⟩
        rcases List.mem_cons.mp hx with rfl | hx'
        · exact absurd (by simpa using hxn) he
        · exact List.any_eq_true.mpr ⟨x, hx', hxn⟩
      exact ih htail hmem

theorem countNetloc_append (reg : List (Netloc × SourceEntry)) (n : Netloc)
    (e : SourceEntry) :
    countNetloc (reg ++ [(n, e)]) n = countNetloc reg n + 1 := by
  unfold countNetloc
  rw [List.filter_append, List.length_append]
  simp

theorem containsNetloc_append_self (reg : List (Netloc × SourceEntry))
    (n : Netloc) (e : SourceEntry) :
    containsNetloc (reg ++ [(n, e)]) n = true := by
  unfold containsNetloc
  rw [List.any_append]
  simp

/-- Initial value of the shared pull/write counters: `Value("i", -1)`
(`source.py` line 57, `sinks.py` line 28, `logger.py` lines 49 and 128). -/
def sharedCounterInit : Int := -1

/-- Observable state of the `Source._pull` worker (`source.py` lines 60-95):
the shared counter, the stop event, and the number of batches put on the
shared queue. -/
structure PullState where
  counter : Int
  stopEventSet : Bool
  queuedBatches : Nat
deriving DecidableEq, Repr

/-- Outcome of the initial `rpyc.connect` in `Source._pull`. -/
inductive ConnectOutcome where
  | ok
  | refused
deriving DecidableEq, Repr

/-- State of the worker after the connection attempt: on `ConnectionRefusedError`
the stop event is set and the counter is never touched (terminal, no retry);
on success the counter changes from -1 to 0 and the poll loop is entered. -/
def pullInit : ConnectOutcome → PullState
  | ConnectOutcome.ok =>
      ⟨sharedCounterInit + 1, false, 0⟩
  | ConnectOutcome.refused =>
      ⟨sharedCounterInit, true, 0⟩

/-- One response of the remote DataService inside the poll loop. -/
inductive PullEvent where
  | gotData
  | eofError
deriving DecidableEq, Repr

/-- One iteration of the `while not stop_event.is_set()` loop of
`Source._pull`: once the stop event is set nothing further happens; a
successful `get_data` puts one batch on the queue and increments the counter;
an `EOFError` sets the stop event. -/
def pullStep (st : PullState) (e : PullEvent) : PullState :=
  if st.stopEventSet then st
  else
    match e with
    | PullEvent.gotData =>
        { st with queuedBatches := st.queuedBatches + 1,
                  counter := st.counter + 1 }
    | PullEvent.eofError => { st with stopEventSet := true }

/-- The `Source._pull` worker over a sequence of DataService responses. -/
def runPull (c : ConnectOutcome) (events : List PullEvent) : PullState :=
  events.foldl pullStep (pullInit c)

/-- Outcome of one `influxdb_client.write_points` call. -/
inductive WriteOutcome where
  | ok
  | clientError
deriving DecidableEq, Repr

/-- Observable state of a Sink worker: the shared counter, the batches
successfully persisted, and the batches lost to `InfluxDBClientError`.
Batches are identified by opaque ids. -/
structure SinkState where
  counter : Int
  written : List Nat
  dropped : List Nat
deriving DecidableEq, Repr

/-- One iteration of the `while True` loop of `InfluxDBSink.write_points`
(`sinks.py` lines 98-116): dequeue a batch and try to persist it; on success
the counter is incremented; on `InfluxDBClientError` the fault is logged with
the batch and the loop continues without incrementing. -/
def write_points_step (st : SinkState) (b : Nat × WriteOutcome) : SinkState :=
  match b.2 with
  | WriteOutcome.ok =>
      { st with written := st.written ++ [b.1], counter := st.counter + 1 }
  | WriteOutcome.clientError =>
      { st with dropped := st.dropped ++ [b.1] }

/-- `InfluxDBSink.write_points` draining a sequence of batches, starting from
the pre-loop increment of the shared counter (-1 to 0). -/
def write_points_run (batches : List (Nat × WriteOutcome)) : SinkState :=
  batches.foldl write_points_step ⟨sharedCounterInit + 1, [], []⟩

/-- One iteration of the `while True` loop of the legacy `Pusher._push`
(`logger.py` lines 143-153): the increment of the shared counter sits after
the try/except block, so it runs for every dequeued batch, also when
`write_points` raised `InfluxDBClientError`. -/
def pusher_push_step (st : SinkState) (b : Nat × WriteOutcome) : SinkState :=
  match b.2 with
  | WriteOutcome.ok =>
      { st with written := st.written ++ [b.1], counter := st.counter + 1 }
  | WriteOutcome.clientError =>
      { st with dropped := st.dropped ++ [b.1], counter := st.counter + 1 }

/-- `Pusher._push` draining a sequence of batches. -/
def pusher_push_run (batches : List (Nat × WriteOutcome)) : SinkState :=
  batches.foldl pusher_push_step ⟨sharedCounterInit + 1, [], []⟩

/-- The batches of a sequence whose persistence succeeds. -/
def okBatches (batches : List (Nat × WriteOutcome)) : List Nat :=
  (batches.filter (fun b => decide (b.2 = WriteOutcome.ok))).map (fun b => b.1)

/-- The batches of a sequence whose persistence raises. -/
def errBatches (batches : List (Nat × WriteOutcome)) : List Nat :=
  (batches.filter (fun b => decide (b.2 = WriteOutcome.clientError))).map
    (fun b => b.1)

theorem write_points_run_spec (batches : List (Nat × WriteOutcome)) :
    ∀ (st : SinkState),
      batches.foldl write_points_step st
        = ⟨st.counter + (okBatches batches).length,
           st.written ++ okBatches batches,
           st.dropped ++ errBatches batches⟩ := by
  induction batches with
  | nil => intro st; simp [okBatches, errBatches]
  | cons b rest ih =>
    intro st
    cases b with
    | mk id outcome =>
      cases outcome with
      | ok =>
          rw [List.foldl_cons]
          rw [ih]
          simp [write_points_step, okBatches, errBatches, List.filter_cons]
          omega
      | clientError =>
          rw [List.foldl_cons]
          rw [ih]
          simp [write_points_step, okBatches, errBatches, List.filter_cons]

theorem pusher_push_run_spec (batches : List (Nat × WriteOutcome)) :
    ∀ (st : SinkState),
      batches.foldl pusher_push_step st
        = ⟨st.counter + batches.length,
           st.written ++ okBatches batches,
           st.dropped ++ errBatches batches⟩ := by
  induction batches with
  | nil => intro st; simp [okBatches, errBatches]
  | cons b rest ih =>
    intro st
    cases b with
    | mk id outcome =>
      cases outcome with
      | ok =>
          rw [List.foldl_cons]
          rw [ih]
          simp [pusher_push_step, okBatches, errBatches, List.filter_cons]
          omega
      | clientError =>
          rw [List.foldl_cons]
          rw [ih]
          simp [pusher_push_step, okBatches, errBatches, List.filter_cons]
          omega

theorem pullStep_counter_mono (st : PullState) (e : PullEvent) :
    st.counter ≤ (pullStep st e).counter := by
  unfold pullStep
  by_cases h : st.stopEventSet
  · simp [h]
  · cases e <;> simp [h]

theorem foldl_pullStep_counter_mono (events : List PullEvent) :
    ∀ st : PullState, st.counter ≤ (events.foldl pullStep st).counter := by
  induction events with
  | nil => intro st; exact le_refl _
  | cons e rest ih =>
    intro st
    exact le_trans (pullStep_counter_mono st e) (ih (pullStep st e))

theorem pullStep_stopped (st : PullState) (e : PullEvent)
    (h : st.stopEventSet = true) : pullStep st e = st := by
  unfold pullStep
  rw [if_pos h]

theorem runPull_refused (events : List PullEvent) :
    runPull ConnectOutcome.refused events = pullInit ConnectOutcome.refused := by
  unfold runPull
  induction events with
  | nil => rfl
  | cons e rest ih =>
    rw [List.foldl_cons, pullStep_stopped _ _ rfl]
    exact ih

/-- A config dict: keys to opaque configuration values (ints suffice for the
observable behaviour). -/
abbrev ConfigDict := List (String × Int)

/-- Python `d[k] = v` on a config dict. -/
def configSet (d : ConfigDict) (k : String) (v : Int) : ConfigDict :=
  if d.any (fun kv => decide (kv.1 = k)) then
    d.map (fun kv => if kv.1 = k then (k, v) else kv)
  else
    d ++ [(k, v)]

/-- Python `d.update(u)`: assign every key of `u` into `d`, in order. -/
def configUpdate (d u : ConfigDict) : ConfigDict :=
  u.foldl (fun acc kv => configSet acc kv.1 kv.2) d

/-- `LabDataService.__init__` (`services/base.py` lines 16-31 and
`services.py` lines 139-147):

    self.config.update(config)
    self.config = copy.deepcopy(self.config)

When `__init__` runs, the instance has no `config` attribute yet, so
`self.config.update(config)` resolves to the class-level dict `config = ...`
and mutates it in place; the deep copy of the now-mutated class dict then
becomes the instance attribute. The result is the new class-level dict and
the instance's config. -/
def ldsInit (classConfig : ConfigDict) (config : ConfigDict) :
    ConfigDict × ConfigDict :=
  let updated := configUpdate classConfig config
  (updated, updated)

/-- The per-instance configuration the spec requires: the instance's own copy
of the class default overridden only by its own caller-supplied values
(modelled from the spec's words; the class-level dict is left untouched). -/
def specInstanceConfig (classDefault : ConfigDict) (config : ConfigDict) :
    ConfigDict :=
  configUpdate classDefault config

/-- A spawned DataService process handle as recorded by the ServiceManager:
the display name and the `is_alive()` status right after `start()`. -/
structure ProcHandle where
  serviceName : String
  alive : Bool
deriving DecidableEq, Repr

/-- State of `ServiceManager` (`services.py` lines 28-31): the dict
`exposed_services` from port to process handle, in insertion order. -/
structure SMState where
  services : List (Nat × ProcHandle)
deriving DecidableEq, Repr

/-- Control-plane validation outcomes of the ServiceManager: the
duplicate-port branch of `exposed_add_service` and the `KeyError` branch of
`exposed_remove_service` (each surfaced by `debug_logger.error`). -/
inductive SMErr where
  | portInUse
  | notFound
deriving DecidableEq, Repr

/-- Key membership in the service registry. -/
def containsPort (svcs : List (Nat × ProcHandle)) (port : Nat) : Bool :=
  svcs.any (fun e => decide (e.1 = port))

/-- `ServiceManager.exposed_add_service` (`services.py` lines 33-51, likewise
`ServicePool.exposed_add_service` in `_pool.py` lines 33-54): a duplicate
port only logs an error; otherwise the service process is spawned and the
handle stored under the port unconditionally — `proc.is_alive()` is only
used to choose the log message, a dead process is registered all the same. -/
def exposed_add_service (st : SMState) (serviceName : String) (port : Nat)
    (aliveAfterStart : Bool) : SMState × Option SMErr :=
  if containsPort st.services port then
    (st, some SMErr.portInUse)
  else
    (⟨st.services ++ [(port, ⟨serviceName, aliveAfterStart⟩)]⟩, none)

/-- `ServiceManager.exposed_remove_service` (`services.py` lines 53-65): a
missing port raises `KeyError`, caught and logged; otherwise the process is
terminated if alive and the entry deleted. -/
def exposed_remove_service (st : SMState) (port : Nat) : SMState × Option SMErr :=
  if containsPort st.services port then
    (⟨st.services.eraseP (fun e => decide (e.1 = port))⟩, none)
  else
    (st, some SMErr.notFound)

/-- C1, counterexample: in the legacy `services.py`, `filter_fields` applied
to produced fields containing only field a with requested field b raises
`KeyError` — the call DOES fail when a requested field is not produced,
refuting the claim as stated for that `get_data` path. -/
theorem C1_filter_fields_keyerror :
    filter_fields [("a", FieldValue.i 1)] ["b"] = none := by
  rfl

/-- C1, amended: for `services/base.py` `get_data`, an empty request returns
all produced fields, a nonempty request returns exactly the restriction of
the produced fields to the requested names (never failing), and the concrete
round-trip example holds; the legacy `services.py` `filter_fields`, however,
fails (raises `KeyError`) precisely when a requested field is not
produced. -/
theorem C1_get_data_filtering (produced : Fields) (requested : List String) :
    get_data produced [] = produced
  ∧ (∀ kv, kv ∈ get_data produced requested ↔
        kv ∈ produced ∧ (requested = [] ∨ kv.1 ∈ requested))
  ∧ get_data [("a", FieldValue.i 1), ("b", FieldValue.i 2)] ["a"]
      = [("a", FieldValue.i 1)]
  ∧ (filter_fields produced requested = none ↔
        requested ≠ [] ∧ ∃ k ∈ requested, lookupField produced k = none) := by
  refine ⟨by simp [get_data], ?_, by rfl,
    filter_fields_eq_none produced requested⟩
  intro kv
  unfold get_data
  by_cases h : requested.isEmpty
  · rw [if_pos h]
    rw [List.isEmpty_iff] at h
    simp [h]
  · rw [if_neg h]
    rw [List.isEmpty_iff] at h
    simp [List.mem_filter, h]

/-- C2: starting from any recorder state whose registry satisfies the Python
dict key-uniqueness invariant, calling `connect_source` twice with the same
netloc leaves exactly one source registered under that netloc; the second
call returns the `AlreadyConnected` error branch and leaves the state
unchanged. -/
theorem C2_connect_source_idempotent_rejecting (s : RecState) (n : Netloc)
    (m1 m2 : String) (i1 i2 : Rat) (f1 f2 : List String)
    (hu : registryKeysUnique s.registry) :
    (connect_source (connect_source s n m1 i1 f1).1 n m2 i2 f2).2
        = some RecErr.alreadyConnected
  ∧ (connect_source (connect_source s n m1 i1 f1).1 n m2 i2 f2).1
        = (connect_source s n m1 i1 f1).1
  ∧ countNetloc
        (connect_source (connect_source s n m1 i1 f1).1 n m2 i2 f2).1.registry
        n = 1 := by
  by_cases h : containsNetloc s.registry n
  · have h1 : connect_source s n m1 i1 f1 = (s, some RecErr.alreadyConnected) := by
      unfold connect_source
      rw [if_pos h]
    rw [h1]
    have h2 : connect_source s n m2 i2 f2 = (s, some RecErr.alreadyConnected) := by
      unfold connect_source
      rw [if_pos h]
    rw [h2]
    exact ⟨rfl, rfl, countNetloc_eq_one hu h⟩
  · have hb : containsNetloc s.registry n = false := by
      simpa using h
    have h1 : connect_source s n m1 i1 f1
        = ({ s with registry := s.registry ++ [(n, ⟨m1, i1, f1, true⟩)] }, none) := by
      unfold connect_source
      rw [if_neg h]
    rw [h1]
    have hc : containsNetloc
        (s.registry ++ [(n, (⟨m1, i1, f1, true⟩ : SourceEntry))]) n = true :=
      containsNetloc_append_self s.registry n _
    have h2 : connect_source
        ({ s with registry := s.registry ++ [(n, ⟨m1, i1, f1, true⟩)] }) n m2 i2 f2
        = ({ s with registry := s.registry ++ [(n, ⟨m1, i1, f1, true⟩)] },
           some RecErr.alreadyConnected) := by
      unfold connect_source
      rw [if_pos (by exact hc)]
    rw [h2]
    refine ⟨rfl, rfl, ?_⟩
    show countNetloc (s.registry ++ [(n, ⟨m1, i1, f1, true⟩)]) n = 1
    rw [countNetloc_append, countNetloc_eq_zero hb]

/-- C2, witness: the double connect on the fresh recorder state. -/
theorem C2_witness :
    (connect_source (connect_source recInit ⟨['h'], 1⟩ "m" 1 []).1
        ⟨['h'], 1⟩ "m" 1 []).2 = some RecErr.alreadyConnected
  ∧ (connect_source (connect_source recInit ⟨['h'], 1⟩ "m" 1 []).1
        ⟨['h'], 1⟩ "m" 1 []).1 = (connect_source recInit ⟨['h'], 1⟩ "m" 1 []).1
  ∧ countNetloc
        (connect_source (connect_source recInit ⟨['h'], 1⟩ "m" 1 []).1
          ⟨['h'], 1⟩ "m" 1 []).1.registry ⟨['h'], 1⟩ = 1 :=
  C2_connect_source_idempotent_rejecting recInit ⟨['h'], 1⟩ "m" "m" 1 1 [] []
    List.Pairwise.nil

/-- C3: the shared counter of a Source starts at -1, becomes 0 immediately
after a successful connection, never decreases under any sequence of worker
loop iterations, and on a refused connection the worker is terminally
stopped with the counter still at -1, with no retry. -/
theorem C3_counter_monotonic :
    sharedCounterInit = -1
  ∧ (pullInit ConnectOutcome.ok).counter = 0
  ∧ (∀ st e, st.counter ≤ (pullStep st e).counter)
  ∧ (∀ c events extra, (runPull c events).counter
        ≤ (runPull c (events ++ extra)).counter)
  ∧ (∀ events, runPull ConnectOutcome.refused events
        = pullInit ConnectOutcome.refused)
  ∧ (pullInit ConnectOutcome.refused).counter = -1
  ∧ (pullInit ConnectOutcome.refused).stopEventSet = true := by
  refine ⟨rfl, rfl, pullStep_counter_mono, ?_, runPull_refused, rfl, rfl⟩
  intro c events extra
  unfold runPull
  rw [List.foldl_append]
  exact foldl_pullStep_counter_mono extra _

/-- C4, counterexample: the legacy `Pusher._push` increments the shared
counter for a batch whose persistence raises `InfluxDBClientError` (the
increment sits after the try/except), so the counter is NOT incremented
exactly when persisting succeeds. -/
theorem C4_pusher_counts_failed_batch :
    (pusher_push_run [(0, WriteOutcome.clientError)]).counter = 1
  ∧ (pusher_push_run [(0, WriteOutcome.clientError)]).written = [] := by
  exact ⟨rfl, rfl⟩

/-- C4, amended: for `InfluxDBSink.write_points` the counter counts exactly
the successfully persisted batches, failed batches are dropped and the loop
continues so later successes still count; the legacy `Pusher._push` likewise
drops failed batches and continues, but its counter counts every drained
batch regardless of persistence outcome. -/
theorem C4_sink_counter_spec (batches : List (Nat × WriteOutcome)) :
    (write_points_run batches).counter = ((okBatches batches).length : Int)
  ∧ (write_points_run batches).written = okBatches batches
  ∧ (write_points_run batches).dropped = errBatches batches
  ∧ (pusher_push_run batches).counter = (batches.length : Int)
  ∧ (pusher_push_run batches).written = okBatches batches
  ∧ (pusher_push_run batches).dropped = errBatches batches := by
  have h1 := write_points_run_spec batches ⟨sharedCounterInit + 1, [], []⟩
  have h2 := pusher_push_run_spec batches ⟨sharedCounterInit + 1, [], []⟩
  unfold write_points_run pusher_push_run
  rw [h1, h2]
  unfold sharedCounterInit
  norm_num

/-- C5, counterexample: setting a second sink on a recorder that already has
one leaves BOTH sink worker processes running on the shared queue — the old
worker is not stopped before the new one is installed and started, refuting
the claim. -/
theorem C5_two_sink_workers :
    (set_sink (set_sink recInit 0) 1).runningSinkWorkers = [0, 1]
  ∧ (set_sink (set_sink recInit 0) 1).sink = some 1 := by
  exact ⟨rfl, rfl⟩

/-- C5, amended: invoking `set_sink` again replaces the sink attribute and
starts the new sink worker, but never stops the previously started worker:
after the second call both workers have been started on the shared queue and
neither has been stopped. -/
theorem C5_set_sink_replaces_without_stopping (s : RecState) (a b : Nat) :
    (set_sink (set_sink s a) b).sink = some b
  ∧ (set_sink (set_sink s a) b).runningSinkWorkers
      = s.runningSinkWorkers ++ [a, b] := by
  unfold set_sink
  simp

/-- C6: `remove_source` on a netloc absent from the registry takes the
`KeyError` branch, returning the `NotConnected` error with the state — in
particular the registry — left completely unchanged. -/
theorem C6_remove_source_not_connected (s : RecState) (n : Netloc)
    (h : containsNetloc s.registry n = false) :
    remove_source s n = (s, some RecErr.notConnected) := by
  unfold remove_source
  rw [if_neg (by simp [h])]

/-- C6, witness: removing from the fresh recorder state. -/
theorem C6_witness :
    remove_source recInit ⟨['h'], 1⟩ = (recInit, some RecErr.notConnected) :=
  C6_remove_source_not_connected recInit ⟨['h'], 1⟩ rfl

/-- C7, counterexample: `connect_source` with interval 0 on the fresh
recorder state succeeds — the source is constructed, its pull process
started, and it is registered under the netloc — refuting the claim that the
Recorder rejects non-positive intervals. -/
theorem C7_interval_zero_accepted :
    (connect_source recInit ⟨['h'], 1⟩ "m" 0 []).2 = none
  ∧ (connect_source recInit ⟨['h'], 1⟩ "m" 0 []).1.registry
      = [(⟨['h'], 1⟩, ⟨"m", 0, [], true⟩)] := by
  exact ⟨rfl, rfl⟩

/-- C7, amended: `connect_source` performs no validation of the interval: for
any netloc not yet registered, a call with interval less than or equal to 0
still constructs the Source, starts its pull process and registers it (only
the duplicate-netloc check is applied). -/
theorem C7_no_interval_validation (s : RecState) (n : Netloc) (m : String)
    (i : Rat) (fs : List String)
    (hn : containsNetloc s.registry n = false) (_hi : i ≤ 0) :
    (connect_source s n m i fs).2 = none
  ∧ (connect_source s n m i fs).1.registry
      = s.registry ++ [(n, ⟨m, i, fs, true⟩)]
  ∧ containsNetloc (connect_source s n m i fs).1.registry n = true := by
  unfold connect_source
  rw [if_neg (by simp [hn])]
  exact ⟨rfl, rfl, containsNetloc_append_self s.registry n _⟩

/-- C7, witness: interval 0 on the fresh recorder state. -/
theorem C7_witness :
    (connect_source recInit ⟨['h'], 2⟩ "m" 0 []).2 = none
  ∧ (connect_source recInit ⟨['h'], 2⟩ "m" 0 []).1.registry
      = recInit.registry ++ [(⟨['h'], 2⟩, ⟨"m", 0, [], true⟩)]
  ∧ containsNetloc (connect_source recInit ⟨['h'], 2⟩ "m" 0 []).1.registry
      ⟨['h'], 2⟩ = true :=
  C7_no_interval_validation recInit ⟨['h'], 2⟩ "m" 0 [] rfl le_rfl

/-- C8: evaluating `LabDataService.__init__` at the failing input. With class
default config empty, constructing a first instance with one caller-supplied
value mutates the shared class-level dict, so a second instance constructed
with an empty config observes the first caller's value instead of the
per-instance copy of the default (which the spec requires to be empty). -/
theorem C8_class_config_leak :
    (ldsInit (ldsInit [] [("x", 1)]).1 []).2 = [("x", 1)]
  ∧ specInstanceConfig [] [] = [] := by
  exact ⟨rfl, rfl⟩

/-- C9, counterexample: a Netloc whose host itself contains a colon (for
example an IPv6-style host) renders to a string whose colon-split has three
parts, which `parse_netloc` rejects with `ValueError` — the canonical string
does not parse back to the Netloc, refuting the universally quantified
round-trip claim. -/
theorem C9_colon_host_breaks_round_trip :
    parse_netloc (netlocToChars ⟨['a', ':', 'b'], 1⟩) = none := by
  rfl

/-- C9, amended: for every Netloc whose host contains no colon, the canonical
string form is the host, a colon and the decimal port, and parsing that
string yields an equal Netloc (equality of `Netloc` values is decidable
structural equality, so equal Netlocs are interchangeable as dict keys). -/
theorem C9_netloc_round_trip (h : List Char) (p : Int) (hc : ':' ∉ h) :
    parse_netloc (netlocToChars ⟨h, p⟩) = some ⟨h, p⟩ := by
  unfold netlocToChars parse_netloc
  show (match splitCh ':' (h ++ ':' :: intToChars p) with
    | [h, p] => (charsToInt p).map (fun port => Netloc.mk h port)
    | [p] => (charsToInt p).map (fun port => Netloc.mk "localhost".toList port)
    | _ => none) = some ⟨h, p⟩
  rw [splitCh_append hc, splitCh_no_sep (intToChars_not_colon p)]
  show (charsToInt (intToChars p)).map (fun port => Netloc.mk h port) = some ⟨h, p⟩
  rw [charsToInt_intToChars]
  rfl

/-- C9, witness: the round trip at a concrete host and port. -/
theorem C9_witness :
    parse_netloc (netlocToChars ⟨['a'], 5⟩) = some ⟨['a'], 5⟩ :=
  C9_netloc_round_trip ['a'] 5 (by decide)

theorem containsPort_append_self (svcs : List (Nat × ProcHandle)) (port : Nat)
    (e : ProcHandle) : containsPort (svcs ++ [(port, e)]) port = true := by
  unfold containsPort
  rw [List.any_append]
  simp

theorem erase_port_append (svcs : List (Nat × ProcHandle)) (port : Nat)
    (e : ProcHandle) (h : containsPort svcs port = false) :
    (svcs ++ [(port, e)]).eraseP (fun x => decide (x.1 = port)) = svcs := by
  induction svcs with
  | nil => simp [List.eraseP_cons]
  | cons b rest ih =>
    have h' : ¬(b.1 = port)
        ∧ ∀ (a : Nat) (pb : ProcHandle), (a, pb) ∈ rest → ¬a = port := by
      simpa [containsPort] using h
    have hrest : containsPort rest port = false := by
      simp only [containsPort, List.any_eq_false]
      intro x hx
      simp only [decide_eq_true_eq]
      exact h'.2 x.1 x.2 hx
    rw [List.cons_append, List.eraseP_cons]
    simp only [h'.1, decide_False, cond_false]
    rw [ih hrest]

/-- C10: on a port not yet in the ServiceManager registry, `add_service`
records the spawned process handle unconditionally — also when the process
is already dead right after start; while that dead entry occupies the port,
a further `add_service` on the same port is rejected with the `PortInUse`
branch and changes nothing; `remove_service` deletes the entry, freeing the
port. -/
theorem C10_add_service_registers_dead_process (st : SMState) (name : String)
    (port : Nat) (h : containsPort st.services port = false) :
    (∀ alive, exposed_add_service st name port alive
        = (⟨st.services ++ [(port, ⟨name, alive⟩)]⟩, none))
  ∧ (∀ name2 alive2,
        exposed_add_service (exposed_add_service st name port false).1
            name2 port alive2
          = ((exposed_add_service st name port false).1, some SMErr.portInUse))
  ∧ (exposed_remove_service (exposed_add_service st name port false).1 port).1
        = st := by
  have hadd : ∀ alive, exposed_add_service st name port alive
      = (⟨st.services ++ [(port, ⟨name, alive⟩)]⟩, none) := by
    intro alive
    unfold exposed_add_service
    rw [if_neg (by simp [h])]
  refine ⟨hadd, ?_, ?_⟩
  · intro name2 alive2
    rw [hadd false]
    unfold exposed_add_service
    rw [if_pos (containsPort_append_self st.services port _)]
  · rw [hadd false]
    unfold exposed_remove_service
    rw [if_pos (containsPort_append_self st.services port _)]
    rw [erase_port_append st.services port _ h]

/-- C10, witness: a dead process registered on port 7 of an empty manager,
blocking the port until removal. -/
theorem C10_witness :
    exposed_add_service ⟨[]⟩ "svc" 7 false = (⟨[(7, ⟨"svc", false⟩)]⟩, none)
  ∧ exposed_add_service (exposed_add_service ⟨[]⟩ "svc" 7 false).1 "other" 7 true
      = ((exposed_add_service ⟨[]⟩ "svc" 7 false).1, some SMErr.portInUse)
  ∧ (exposed_remove_service (exposed_add_service ⟨[]⟩ "svc" 7 false).1 7).1
      = ⟨[]⟩ := by
  have h := C10_add_service_registers_dead_process ⟨[]⟩ "svc" 7 rfl
  exact ⟨h.1 false, h.2.1 "other" true, h.2.2⟩
